import Mathlib

/-!
Verification of `label_studio/data_export/formats/segmentation_csv_exporter.py`.

The Python source is shallowly embedded: numpy boolean buffers become
`List Bool`, two-dimensional masks become `List (List Bool)` (row-major),
Python `int` becomes `Int`/`Nat`, Python `float` becomes `Rat`, and absent
(`None`) values become `Option`.  External collaborators (PIL image decoding,
the storage resolver, Python's `float()` parser) are parameters of the
pipeline, never stubs of in-repository logic.
-/

namespace SegExport



/-- Embeds the numpy slice assignment `flat[s:e] = 1` on a boolean buffer:
position `i` becomes true when `s ≤ i < e`, every other position keeps its
value. -/
def fillTrue (flat : List Bool) (s e : Nat) : List Bool :=
  (List.range flat.length).map fun i => if s ≤ i ∧ i < e then true else flat.getD i false

/-- Embeds the `for count in rle` loop of `_decode_brush_rle_to_mask`
(segmentation_csv_exporter.py lines 64-74): a non-positive count flips the
current value and continues; a positive count fills `[idx, min (idx+count) total)`
when the current value is 1, advances `idx`, flips the value, and breaks once
`idx` reaches the end of the buffer. -/
def decodeLoop : List Int → List Bool → Nat → Bool → List Bool
  | [], flat, _, _ => flat
  | c :: rest, flat, idx, value =>
    if c ≤ 0 then decodeLoop rest flat idx (!value)
    else
      let e := min (idx + c.toNat) flat.length
      let flat' := if value then fillTrue flat idx e else flat
      if flat.length ≤ e then flat'
      else decodeLoop rest flat' e (!value)

/-- Embeds `flat.reshape((height, width))`: row `r` is the slice
`flat[r*width : r*width + width]`. -/
def reshape (flat : List Bool) (width height : Nat) : List (List Bool) :=
  (List.range height).map fun r => (flat.drop (r * width)).take width

/-- Embeds `_decode_brush_rle_to_mask(rle, width, height)`: start from a zero
buffer of length `width*height` with current value 0 at position 0, run the
decode loop, reshape to `(height, width)`. -/
def decode_brush_rle_to_mask (rle : List Int) (width height : Nat) : List (List Bool) :=
  reshape (decodeLoop rle (List.replicate (width * height) false) 0 false) width height

/-- Follows the words of the specification of the mask decoder (claim C2):
a zero-or-negative run length flips the current value without consuming
positions and without terminating; a positive run length `L` fills
`min L remaining` consecutive flattened positions with the current value and
then flips it; consumption stops once the cumulative position reaches the
total; every position not covered by any run is background (false). -/
def decodeSpecRuns (total : Nat) : List Int → Nat → Bool → List Bool
  | [], pos, _ => List.replicate (total - pos) false
  | c :: rest, pos, v =>
    if total ≤ pos then []
    else if c ≤ 0 then decodeSpecRuns total rest pos (!v)
    else
      let k := min c.toNat (total - pos)
      List.replicate k v ++ decodeSpecRuns total rest (pos + k) (!v)

/-- The specification-level mask decoder (claim C2's wording), reshaped like
the implementation. -/
def maskDecoderSpec (rle : List Int) (width height : Nat) : List (List Bool) :=
  reshape (decodeSpecRuns (width * height) rle 0 false) width height

/-! ### Region geometry analyzer (`_compute_bbox_and_area`, lines 100-112) -/

/-- The column indices of the true entries of one row, in increasing order. -/
def rowTrueCols (row : List Bool) : List Nat :=
  (List.range row.length).filterMap fun x => if row.getD x false then some x else none

/-- Embeds `np.where(mask)` on a row-major boolean grid: the row-major list
of `(row, column)` coordinates of the true pixels. -/
def truePixels (mask : List (List Bool)) : List (Nat × Nat) :=
  (List.range mask.length).flatMap fun y =>
    (rowTrueCols (mask.getD y [])).map fun x => (y, x)

/-- The pixel at row `y`, column `x` of the grid is set (out-of-range reads
are background). -/
def pixelTrue (mask : List (List Bool)) (y x : Nat) : Prop :=
  (mask.getD y []).getD x false = true

instance (mask : List (List Bool)) (y x : Nat) : Decidable (pixelTrue mask y x) := by
  unfold pixelTrue
  infer_instance

/-- Embeds `int(mask.sum())`: the number of true entries of the grid. -/
def maskSum (mask : List (List Bool)) : Nat :=
  (mask.map fun row => row.count true).sum

/-- Embeds `xs.min()` on a nonempty numpy array (the empty case is never
reached behind the emptiness guard). -/
def listMinN : List Nat → Nat
  | [] => 0
  | a :: t => t.foldl min a

/-- Embeds `xs.max()` on a nonempty numpy array. -/
def listMaxN : List Nat → Nat
  | [] => 0
  | a :: t => t.foldl max a

/-- Embeds `_compute_bbox_and_area(mask)`: coordinates of true pixels as in
`np.where`, all-zero answer when there are none, otherwise
`(x_min, y_min, max 0 (x_max - x_min), max 0 (y_max - y_min), mask.sum())`. -/
def compute_bbox_and_area (mask : List (List Bool)) : Nat × Nat × Nat × Nat × Nat :=
  let ys := (truePixels mask).map Prod.fst
  let xs := (truePixels mask).map Prod.snd
  if xs.isEmpty || ys.isEmpty then (0, 0, 0, 0, 0)
  else
    (listMinN xs, listMinN ys, max 0 (listMaxN xs - listMinN xs),
      max 0 (listMaxN ys - listMinN ys), maskSum mask)

/-! ### Intensity aggregator (`_compute_intensities`, lines 115-134) -/

/-- A decoded PIL image: its `mode` string, its dimensions (used by the size
probe of the orchestrator), and per-pixel values as functions of
`(row, column)`: `grayAt` stands for `np.array(image.convert("L"))`, and
`rAt`/`gAt`/`bAt` for the split channels of `image.convert("RGB")`.  The
pixel functions are parameters because PIL decoding and colour conversion
are external collaborators. -/
structure PImage where
  width : Nat
  height : Nat
  mode : String
  grayAt : Nat → Nat → Rat
  rAt : Nat → Nat → Rat
  gAt : Nat → Nat → Rat
  bAt : Nat → Nat → Rat

/-- Mean of a per-pixel function over a coordinate list: embeds
`float(channel[mask_bool].mean())`. -/
def meanOver (f : Nat → Nat → Rat) (pts : List (Nat × Nat)) : Rat :=
  (pts.map fun p => f p.1 p.2).sum / (pts.length : Rat)

/-- Embeds `_compute_intensities(image, mask)`: all four means are `None`
when the mask sums to zero; gray is always computed from the luminance
conversion; for single-channel modes (`L`, `I`, `I;16`, `F`) the colour
means stay `None`; otherwise each RGB channel is averaged over the masked
positions.  The inner `if mask_bool.any()` guards are kept as the
`truePixels ≠ []` conditionals. -/
def compute_intensities (image : PImage) (mask : List (List Bool)) :
    Option Rat × Option Rat × Option Rat × Option Rat :=
  if maskSum mask = 0 then (none, none, none, none)
  else
    let pts := truePixels mask
    let mean_gray := if pts ≠ [] then some (meanOver image.grayAt pts) else none
    if image.mode = "L" ∨ image.mode = "I" ∨ image.mode = "I;16" ∨ image.mode = "F" then
      (mean_gray, none, none, none)
    else
      (mean_gray,
        if pts ≠ [] then some (meanOver image.rAt pts) else none,
        if pts ≠ [] then some (meanOver image.gAt pts) else none,
        if pts ≠ [] then some (meanOver image.bAt pts) else none)

/-- A concrete single-pixel grayscale image for the C7 witness. -/
def grayProbeImage : PImage :=
  { width := 1, height := 1, mode := "L",
    grayAt := fun _ _ => 3, rAt := fun _ _ => 0, gAt := fun _ _ => 0, bAt := fun _ _ => 0 }

/-! ### Polygon rasterizer (`_rasterize_polygon`, lines 90-97) and
percent-to-pixel conversion (`_polygon_points_percent_to_px`, lines 81-87) -/

/-- Embeds Python's `int(round(x))` on a rational number: round half to
even. -/
def pyRound (q : Rat) : Int :=
  if q - (⌊q⌋ : Rat) < 1/2 then ⌊q⌋
  else if (1 : Rat)/2 < q - (⌊q⌋ : Rat) then ⌊q⌋ + 1
  else if ⌊q⌋ % 2 = 0 then ⌊q⌋ else ⌊q⌋ + 1

/-- Embeds `_polygon_points_percent_to_px(points, width, height)`:
`(x/100*width, y/100*height)` per vertex, unrounded. -/
def polygon_points_percent_to_px (points : List (Rat × Rat)) (width height : Nat) :
    List (Rat × Rat) :=
  points.map fun p => (p.1 / 100 * (width : Rat), p.2 / 100 * (height : Rat))

/-- Embeds `np.zeros((height, width), dtype=bool)`. -/
def zeroMask (width height : Nat) : List (List Bool) :=
  List.replicate height (List.replicate width false)

/-- Embeds `_rasterize_polygon(points_px, width, height)`: the empty vertex
list yields the all-false mask of the requested size; otherwise the vertices
are rounded with `int(round(.))` and handed to PIL's polygon fill, the
external collaborator `polyFill` (standing for `ImageDraw.polygon` with
`outline=1, fill=1` followed by `np.array(img) > 0`). -/
def rasterize_polygon (polyFill : List (Int × Int) → Nat → Nat → List (List Bool))
    (points_px : List (Rat × Rat)) (width height : Nat) : List (List Bool) :=
  if points_px = [] then zeroMask width height
  else polyFill (points_px.map fun p => (pyRound p.1, pyRound p.2)) width height

/-! ### Export pipeline orchestrator (`export_segmentation_metrics`, lines 269-451)

The row-producing core is embedded; CSV serialization and ZIP packaging
(plain filesystem I/O) are outside the model.  The `defaultdict` grouping by
`(filename, task id)` key is represented as the flat ordered list of
`(key, row)` pairs from which the per-key tables are recovered.  An `.error`
result embeds a Python exception escaping `export_segmentation_metrics`. -/

/-- The run-length payload `value.get("rle")` as a dynamically typed field. -/
inductive RleField
  /-- A list whose entries are all Python ints: decoding succeeds. -/
  | ints (l : List Int)
  /-- A nonempty list containing non-integer entries: `isinstance(.., list)`
  holds but `_decode_brush_rle_to_mask` raises, which the caller catches. -/
  | badList
  /-- A truthy non-list value: `isinstance(.., list)` fails, and
  `list(rle)`/decoding raises inside the guarded `try`. -/
  | nonList
deriving DecidableEq

/-- The polygon payload `value.get("points")`: a list of well-formed
two-element numeric entries, or a nonempty list with a malformed entry on
which `_polygon_points_percent_to_px` raises (uncaught). -/
inductive PointsField
  | pairs (l : List (Rat × Rat))
  | malformed
deriving DecidableEq

/-- The shape-relevant entries of `res.get("value") or {}`.  Absent or null
dictionary keys are `none`/`[]`.  Sizes are modelled as the non-negative
integers occurring in annotation payloads. -/
structure ResultValue where
  brushlabels : List String := []
  polygonlabels : List String := []
  format : Option String := none
  rle : Option RleField := none
  points : Option PointsField := none
  text : List String := []
  original_width : Option Nat := none
  original_height : Option Nat := none
deriving DecidableEq

/-- One entry of `annotation["result"]`.  `pyid` models CPython object
identity `id(res)` (unique per result object), used to synthesize region
identifiers for anonymous regions. -/
structure Result where
  id : Option String := none
  pyid : Nat := 0
  rtype : Option String := none
  to_name : Option String := none
  value : ResultValue := {}
  original_width : Option Nat := none
  original_height : Option Nat := none
deriving DecidableEq

structure Annotation where
  id : Option Int := none
  result : List Result := []
deriving DecidableEq

/-- A task record: `data` is the ordered field-to-image-reference dict. -/
structure Task where
  id : Option Int := none
  data : List (String × String) := []
  annotations : List Annotation := []
deriving DecidableEq

/-- The resolved image source (`_resolve_image_source` output): only the
fields the row assembly reads. -/
structure ImageSource where
  url : String
  filename : String
deriving DecidableEq

/-- One output record (a CSV row).  `polygon_points_px` carries the pixel
vertices serialized by `json.dumps` (empty list for masks and for the empty
string). -/
structure Row where
  image_filename : String
  task_id : Option Int
  annotation_id : Option Int
  region_id : String
  label : String
  shape_type : String
  bbox_x : Nat
  bbox_y : Nat
  x_length : Nat
  y_length : Nat
  area : Nat
  mean_gray : Option Rat
  mean_r : Option Rat
  mean_g : Option Rat
  mean_b : Option Rat
  polygon_points_px : List (Rat × Rat)
deriving DecidableEq

/-- The batch output: the ordered `(grouping key, row)` pairs and whether the
explanatory `README.txt` note is written (exactly when no row was
produced). -/
structure ExportOut where
  rows : List (String × Row)
  noteFile : Bool
deriving DecidableEq

/-- The external collaborators of the orchestrator: the parsed-config lookup
`_get_object_value_key_for_result`, the image source resolver, the image
opener (`None` = unavailable), Python's `float(...)` parser on stripped
text, PIL's polygon fill, and the `download_resources` flag. -/
structure Ctx where
  configKey : String → Option String
  resolveSource : String → ImageSource
  openImage : ImageSource → Option PImage
  parseFloat : String → Option Rat
  polyFill : List (Int × Int) → Nat → Nat → List (List Bool)
  download_resources : Bool

/-- Embeds Python's `str.lower()` on the ASCII tag names occurring in
annotations. -/
def asciiLower (s : String) : String :=
  String.mk (s.data.map fun c =>
    if 65 ≤ c.toNat ∧ c.toNat ≤ 90 then Char.ofNat (c.toNat + 32) else c)

/-- Python `a or b` on optional strings, where `None` and `""` are falsy. -/
def pyOrStr (a b : Option String) : Option String :=
  match a with
  | some s => if s ≠ "" then some s else b
  | none => b

/-- Python `a or b` on optional ints, where `None` and `0` are falsy. -/
def pyOrNat (a b : Option Nat) : Option Nat :=
  match a with
  | some n => if n ≠ 0 then some n else b
  | none => b

/-- Python `f"{task_id}"` on a possibly missing id. -/
def pyStrOptInt : Option Int → String
  | some i => toString i
  | none => "None"

/-- Embeds `_first_label_from_result_value(value, key)` on a list payload:
stringified entries joined with ";". -/
def first_label_from_result_value (labels : List String) : String :=
  String.intercalate ";" labels

/-- Embeds Python's `str.strip()` on annotation text: drop leading and
trailing whitespace. -/
def pyStrip (s : String) : String :=
  String.mk ((s.data.dropWhile Char.isWhitespace).reverse.dropWhile
    Char.isWhitespace).reverse

/-- One step of the pre-scan loop (lines 296-315): for a result with a
region id, record the joined label list when truthy, and record the parsed
first textarea text as an intensity override (parse failures pass
silently). -/
def prescanStep (ctx : Ctx) (maps : List (String × String) × List (String × Rat))
    (res : Result) : List (String × String) × List (String × Rat) :=
  match res.id with
  | none => maps
  | some region_id =>
    let lb : Option String :=
      if res.value.brushlabels ≠ [] then
        some (first_label_from_result_value res.value.brushlabels)
      else if res.value.polygonlabels ≠ [] then
        some (first_label_from_result_value res.value.polygonlabels)
      else none
    let labelMap :=
      match lb with
      | some s => if s ≠ "" then (region_id, s) :: maps.1 else maps.1
      | none => maps.1
    let textMap :=
      if res.rtype = some "textarea" then
        match res.value.text with
        | [] => maps.2
        | t :: _ =>
          match ctx.parseFloat (pyStrip t) with
          | some r => (region_id, r) :: maps.2
          | none => maps.2
      else maps.2
    (labelMap, textMap)

/-- The pre-scan of one annotation's results (lines 293-315), producing the
label and textarea-override dictionaries (insertion prepends, lookup takes
the most recent entry, matching Python dict assignment). -/
def prescan (ctx : Ctx) (results : List Result) :
    List (String × String) × List (String × Rat) :=
  results.foldl (prescanStep ctx) ([], [])

/-- Embeds lines 322-328: the object value key from the parsed config (or
the first data key), then the image url (or the first data value), then the
`if not image_url` skip («""» and missing are both falsy). -/
def resolveImageUrl (ctx : Ctx) (data : List (String × String)) (res : Result) :
    Option String :=
  let data_key := pyOrStr (ctx.configKey (res.to_name.getD "")) (data.head?.map Prod.fst)
  let raw : Option String :=
    match data_key with
    | some k => if (data.lookup k).isSome then data.lookup k else data.head?.map Prod.snd
    | none => data.head?.map Prod.snd
  match raw with
  | some s => if s = "" then none else some s
  | none => none

/-- Embeds lines 331-345: explicit `original_width`/`original_height` from
the result or its value (0 when falsy), probed from the opened image when
missing and downloads are allowed. -/
def resolveSize (ctx : Ctx) (source : ImageSource) (res : Result) : Nat × Nat :=
  let ow := (pyOrNat res.original_width res.value.original_width).getD 0
  let oh := (pyOrNat res.original_height res.value.original_height).getD 0
  if (ow = 0 ∨ oh = 0) ∧ ctx.download_resources then
    match ctx.openImage source with
    | some probe => (probe.width, probe.height)
    | none => (ow, oh)
  else (ow, oh)

/-- Embeds line 351: `rtype == "brushlabels"` or an explicit rle-format list
payload. -/
def rleIsList : Option RleField → Bool
  | some (.ints _) => true
  | some .badList => true
  | some .nonList => false
  | none => false

def isMaskResult (res : Result) : Bool :=
  decide (asciiLower (res.rtype.getD "") = "brushlabels") ||
    (decide (res.value.format = some "rle") && rleIsList res.value.rle)

/-- Embeds line 352: `rtype == "polygonlabels"` or a truthy list payload
under `points`. -/
def pointsTruthy : Option PointsField → Bool
  | some (.pairs l) => !l.isEmpty
  | some .malformed => true
  | none => false

def isPolygonResult (res : Result) : Bool :=
  decide (asciiLower (res.rtype.getD "") = "polygonlabels") || pointsTruthy res.value.points

/-- Embeds lines 354-358: the region id, synthesized as
`f"{rtype}-{id(res)}"` when absent. -/
def regionIdStr (res : Result) : String :=
  match res.id with
  | some s => s
  | none => asciiLower (res.rtype.getD "") ++ "-" ++ toString res.pyid

/-- Embeds `value.get("rle") or []` (line 363). -/
def rleOrEmpty : Option RleField → RleField
  | none => .ints []
  | some f => f

/-- Embeds `value.get("points") or []` (line 373). -/
def pointsOrEmpty : Option PointsField → PointsField
  | none => .pairs []
  | some f => f

/-- Embeds the mask-branch label (line 370): the result's own joined brush
labels, or the label recorded in the pre-scan for this region id, or `""`. -/
def maskLabel (value : ResultValue) (labelMap : List (String × String))
    (rid : String) : String :=
  let own := first_label_from_result_value value.brushlabels
  if own ≠ "" then own else (labelMap.lookup rid).getD ""

/-- Embeds the polygon-branch label (line 377). -/
def polyLabel (value : ResultValue) (labelMap : List (String × String))
    (rid : String) : String :=
  let own := first_label_from_result_value value.polygonlabels
  if own ≠ "" then own else (labelMap.lookup rid).getD ""

/-- Embeds lines 383-394: the textarea override for this region id when
present, else the masked intensities of the opened image, else four absent
values when the image is unavailable. -/
def regionMeans (ctx : Ctx) (textMap : List (String × Rat)) (rid : String)
    (source : ImageSource) (mask : List (List Bool)) :
    Option Rat × Option Rat × Option Rat × Option Rat :=
  match textMap.lookup rid with
  | some tg => (some tg, none, none, none)
  | none =>
    match ctx.openImage source with
    | none => (none, none, none, none)
    | some img => compute_intensities img mask

/-- Embeds line 416: the per-image grouping key `{filename}__task_{id}`. -/
def rowKey (source : ImageSource) (task_id : Option Int) : String :=
  source.filename ++ "__task_" ++ pyStrOptInt task_id

/-- Assembles the output row (lines 396-413). -/
def mkRow (source : ImageSource) (task_id ann_id : Option Int) (rid label shape : String)
    (g : Nat × Nat × Nat × Nat × Nat)
    (means : Option Rat × Option Rat × Option Rat × Option Rat)
    (poly : List (Rat × Rat)) : Row :=
  { image_filename := source.filename, task_id := task_id, annotation_id := ann_id,
    region_id := rid, label := label, shape_type := shape,
    bbox_x := g.1, bbox_y := g.2.1, x_length := g.2.2.1, y_length := g.2.2.2.1,
    area := g.2.2.2.2, mean_gray := means.1, mean_r := means.2.1,
    mean_g := means.2.2.1, mean_b := means.2.2.2, polygon_points_px := poly }

/-- Embeds one iteration of the main result loop (lines 318-418) on the
state (processed region ids, emitted `(key, row)` pairs).  Every `continue`
is `.ok st`; the uncaught exception of the polygon branch on a malformed
payload is `.error ()`; the guarded rle decode failure is a skip. -/
def processResult (ctx : Ctx) (data : List (String × String))
    (task_id ann_id : Option Int) (labelMap : List (String × String))
    (textMap : List (String × Rat)) (st : List String × List (String × Row))
    (res : Result) : Except Unit (List String × List (String × Row)) :=
  match resolveImageUrl ctx data res with
  | none => Except.ok st
  | some image_url =>
    let source := ctx.resolveSource image_url
    let sz := resolveSize ctx source res
    if sz.1 = 0 ∨ sz.2 = 0 then Except.ok st
    else
      let rid := regionIdStr res
      if rid ∈ st.1 then Except.ok st
      else if isMaskResult res then
        match rleOrEmpty res.value.rle with
        | .ints l =>
          let mask := decode_brush_rle_to_mask l sz.1 sz.2
          Except.ok (rid :: st.1, st.2 ++ [(rowKey source task_id,
            mkRow source task_id ann_id rid (maskLabel res.value labelMap rid) "mask"
              (compute_bbox_and_area mask) (regionMeans ctx textMap rid source mask) [])])
        | .badList => Except.ok st
        | .nonList => Except.ok st
      else if isPolygonResult res then
        match pointsOrEmpty res.value.points with
        | .pairs l =>
          let poly := polygon_points_percent_to_px l sz.1 sz.2
          let mask := rasterize_polygon ctx.polyFill poly sz.1 sz.2
          Except.ok (rid :: st.1, st.2 ++ [(rowKey source task_id,
            mkRow source task_id ann_id rid (polyLabel res.value labelMap rid) "polygon"
              (compute_bbox_and_area mask) (regionMeans ctx textMap rid source mask) poly)])
        | .malformed => Except.error ()
      else Except.ok st

/-- Embeds the per-annotation processing (lines 290-418): pre-scan, then the
result loop from an empty processed set and row list. -/
def processAnnotation (ctx : Ctx) (data : List (String × String))
    (task_id : Option Int) (ann : Annotation) : Except Unit (List (String × Row)) :=
  match ann.result.foldlM (processResult ctx data task_id ann.id
      (prescan ctx ann.result).1 (prescan ctx ann.result).2) ([], []) with
  | .ok st => Except.ok st.2
  | .error e => Except.error e

/-- Embeds the per-task loop (lines 285-290). -/
def processTask (ctx : Ctx) (task : Task) : Except Unit (List (String × Row)) :=
  task.annotations.foldlM (fun acc ann =>
    match processAnnotation ctx task.data task.id ann with
    | .ok rows => Except.ok (acc ++ rows)
    | .error e => Except.error e) []

/-- Embeds the row-producing core of `export_segmentation_metrics`: all rows
of the batch in processing order, plus the note file flag (lines 434-441),
set exactly when no rows were produced. -/
def export_segmentation_metrics (ctx : Ctx) (tasks : List Task) :
    Except Unit ExportOut :=
  match tasks.foldlM (fun acc task =>
      match processTask ctx task with
      | .ok r => Except.ok (acc ++ r)
      | .error e => Except.error e) ([] : List (String × Row)) with
  | .ok rows => Except.ok { rows := rows, noteFile := rows.isEmpty }
  | .error e => Except.error e

/-- A trivial collaborator context for concrete runs: no config mapping, the
url is its own filename, images never open, no float parses, downloads
off. -/
def plainCtx : Ctx :=
  { configKey := fun _ => none,
    resolveSource := fun u => { url := u, filename := u },
    openImage := fun _ => none,
    parseFloat := fun _ => none,
    polyFill := fun _ _ _ => [],
    download_resources := false }

/-- The batch used by the C4 counterexample: a single polygon region whose
`points` payload is a nonempty list with a malformed entry. -/
def malformedPolygonTask : Task :=
  { id := some 1, data := [("image", "img.png")],
    annotations := [{ id := some 2, result := [
      { id := some "p1", rtype := some "polygonlabels",
        value := { points := some PointsField.malformed,
                   original_width := some 4, original_height := some 4 } }] }] }

/-- The batch used by the C4 witness: a single mask region whose rle payload
is a list with non-integer entries (decode raises, caught, region
skipped). -/
def malformedRleTask : Task :=
  { id := some 3, data := [("image", "img.png")],
    annotations := [{ id := some 4, result := [
      { id := some "m1", rtype := some "brushlabels",
        value := { rle := some RleField.badList,
                   original_width := some 2, original_height := some 2 } }] }] }

/-- The concrete brushlabels result of the C9 witness: its rle entry is
present but the empty list. -/
def emptyRleResult : Result :=
  { id := some "m9", rtype := some "brushlabels",
    value := { brushlabels := ["cell"], rle := some (RleField.ints []) },
    original_width := some 3, original_height := some 2 }

/-- The concrete unparseable textarea result of the C10 witness. -/
def badTextResult : Result :=
  { id := some "m9", rtype := some "textarea",
    value := { text := ["not a number"] } }

/-- First mask region of the dedup scenario. -/
def dupResult1 : Result :=
  { id := some "r1", rtype := some "brushlabels",
    value := { rle := some (RleField.ints [0, 2]) },
    original_width := some 2, original_height := some 2 }

/-- Second mask region of the dedup scenario, sharing the region id. -/
def dupResult2 : Result :=
  { id := some "r1", rtype := some "brushlabels",
    value := { rle := some (RleField.ints [2, 2]) },
    original_width := some 2, original_height := some 2 }

/-- The single row produced by the dedup scenario (the second region with
the shared id is dropped). -/
def dupRow : String × Row :=
  ("img.png__task_1",
    { image_filename := "img.png", task_id := some 1, annotation_id := some 2,
      region_id := "r1", label := "", shape_type := "mask",
      bbox_x := 0, bbox_y := 0, x_length := 1, y_length := 0, area := 2,
      mean_gray := none, mean_r := none, mean_g := none, mean_b := none,
      polygon_points_px := [] })

/-- A context whose float parser accepts exactly the literal "3". -/
def parseCtx : Ctx :=
  { plainCtx with parseFloat := fun s => if s = "3" then some 3 else none }

/-- The textarea result carrying the textual override "3" for region
"r1". -/
def overrideTextResult : Result :=
  { id := some "r1", rtype := some "textarea", value := { text := ["3"] } }

/-- The annotation of the override scenario: a mask region plus a textarea
override for the same region id. -/
def overrideAnn : Annotation :=
  { id := some 2, result := [dupResult1, overrideTextResult] }

/-- The row produced by the override scenario: the gray mean is the parsed
override, R/G/B are absent. -/
def overrideRow : String × Row :=
  ("img.png__task_1",
    { image_filename := "img.png", task_id := some 1, annotation_id := some 2,
      region_id := "r1", label := "", shape_type := "mask",
      bbox_x := 0, bbox_y := 0, x_length := 1, y_length := 0, area := 2,
      mean_gray := some 3, mean_r := none, mean_g := none, mean_b := none,
      polygon_points_px := [] })

@[simp] theorem fillTrue_length (flat : List Bool) (s e : Nat) :
    (fillTrue flat s e).length = flat.length := by
  simp [fillTrue]

theorem fillTrue_getElem? (flat : List Bool) (s e i : Nat) :
    (fillTrue flat s e)[i]? =
      if i < flat.length then some (if s ≤ i ∧ i < e then true else flat.getD i false)
      else none := by
  unfold fillTrue
  rcases Nat.lt_or_ge i flat.length with h | h
  · rw [List.getElem?_map, List.getElem?_range h, if_pos h]
    rfl
  · rw [List.getElem?_map, List.getElem?_eq_none (by simpa using h), if_neg (by omega)]
    rfl

theorem decodeSpecRuns_stop (total : Nat) (rle : List Int) (pos : Nat) (v : Bool)
    (h : total ≤ pos) : decodeSpecRuns total rle pos v = [] := by
  cases rle with
  | nil => simp [decodeSpecRuns, Nat.sub_eq_zero_of_le h]
  | cons c rest => simp [decodeSpecRuns, h]

theorem decodeLoop_cons_nonpos {c : Int} (rest : List Int) (flat : List Bool)
    (idx : Nat) (v : Bool) (hc : c ≤ 0) :
    decodeLoop (c :: rest) flat idx v = decodeLoop rest flat idx (!v) := by
  simp only [decodeLoop, if_pos hc]

theorem decodeLoop_cons_pos {c : Int} (rest : List Int) (flat : List Bool)
    (idx : Nat) (v : Bool) (hc : ¬ c ≤ 0) :
    decodeLoop (c :: rest) flat idx v =
      if flat.length ≤ min (idx + c.toNat) flat.length then
        (if v then fillTrue flat idx (min (idx + c.toNat) flat.length) else flat)
      else
        decodeLoop rest (if v then fillTrue flat idx (min (idx + c.toNat) flat.length) else flat)
          (min (idx + c.toNat) flat.length) (!v) := by
  simp only [decodeLoop, if_neg hc]

theorem decodeSpecRuns_cons_nonpos {total : Nat} {c : Int} (rest : List Int)
    {pos : Nat} (v : Bool) (h1 : ¬ total ≤ pos) (hc : c ≤ 0) :
    decodeSpecRuns total (c :: rest) pos v = decodeSpecRuns total rest pos (!v) := by
  simp only [decodeSpecRuns, if_neg h1, if_pos hc]

theorem decodeSpecRuns_cons_pos {total : Nat} {c : Int} (rest : List Int)
    {pos : Nat} (v : Bool) (h1 : ¬ total ≤ pos) (hc : ¬ c ≤ 0) :
    decodeSpecRuns total (c :: rest) pos v =
      List.replicate (min c.toNat (total - pos)) v ++
        decodeSpecRuns total rest (pos + min c.toNat (total - pos)) (!v) := by
  simp only [decodeSpecRuns, if_neg h1, if_neg hc]

theorem fillTrue_append (pre : List Bool) (n k : Nat) (hk : k ≤ n) :
    fillTrue (pre ++ List.replicate n false) pre.length (pre.length + k) =
      pre ++ (List.replicate k true ++ List.replicate (n - k) false) := by
  apply List.ext_getElem?
  intro i
  rw [fillTrue_getElem?]
  have hlen : (pre ++ List.replicate n false).length = pre.length + n := by simp
  rcases Nat.lt_or_ge i pre.length with h1 | h1
  · rw [if_pos (by omega), if_neg (by omega)]
    rw [List.getD_append _ _ _ _ h1, List.getElem?_append_left h1,
      List.getD_eq_getElem _ _ h1, List.getElem?_eq_getElem h1]
  · rcases Nat.lt_or_ge i (pre.length + k) with h2 | h2
    · rw [if_pos (by omega), if_pos (by omega)]
      rw [List.getElem?_append_right h1,
        List.getElem?_append_left (by simp; omega : i - pre.length < (List.replicate k true).length),
        List.getElem?_replicate, if_pos (by omega)]
    · rcases Nat.lt_or_ge i (pre.length + n) with h3 | h3
      · rw [if_pos (by omega), if_neg (by omega)]
        rw [List.getD_eq_getElem _ _ (by omega : i < (pre ++ List.replicate n false).length),
          List.getElem_append_right h1, List.getElem_replicate]
        rw [List.getElem?_append_right h1,
          List.getElem?_append_right (by simp; omega : (List.replicate k true).length ≤ i - pre.length),
          List.getElem?_replicate]
        simp only [List.length_replicate]
        rw [if_pos (by omega)]
      · rw [if_neg (by omega), Eq.comm, List.getElem?_eq_none (by simp; omega)]

theorem decodeLoop_eq_spec (rle : List Int) :
    ∀ (pre : List Bool) (n : Nat) (v : Bool),
      decodeLoop rle (pre ++ List.replicate n false) pre.length v =
        pre ++ decodeSpecRuns (pre.length + n) rle pre.length v := by
  induction rle with
  | nil =>
    intro pre n v
    simp [decodeLoop, decodeSpecRuns]
  | cons c rest ih =>
    intro pre n v
    by_cases hc : c ≤ 0
    · rw [decodeLoop_cons_nonpos rest _ _ v hc, ih pre n (!v)]
      congr 1
      rcases Nat.eq_zero_or_pos n with hn | hn
      · subst hn
        rw [decodeSpecRuns_stop _ _ _ _ (by omega), decodeSpecRuns_stop _ _ _ _ (by omega)]
      · rw [decodeSpecRuns_cons_nonpos rest v (by omega) hc]
    · have hlen : (pre ++ List.replicate n false).length = pre.length + n := by simp
      have he : min (pre.length + c.toNat) (pre ++ List.replicate n false).length
          = pre.length + min c.toNat n := by rw [hlen]; omega
      have hflat' : (if v then fillTrue (pre ++ List.replicate n false) pre.length
            (pre.length + min c.toNat n) else pre ++ List.replicate n false)
          = (pre ++ List.replicate (min c.toNat n) v) ++
              List.replicate (n - min c.toNat n) false := by
        cases v with
        | true =>
          rw [if_pos rfl, fillTrue_append pre n (min c.toNat n) (Nat.min_le_right _ _),
            List.append_assoc]
        | false =>
          rw [if_neg (by simp), List.append_assoc]
          congr 1
          rw [← List.replicate_add]
          congr 1
          omega
      rw [decodeLoop_cons_pos rest _ _ v hc, he, hflat']
      by_cases hstop : n ≤ min c.toNat n
      · have hkn : min c.toNat n = n := by omega
        rw [if_pos (by rw [hlen]; omega)]
        rw [hkn, Nat.sub_self, List.replicate_zero, List.append_nil]
        rcases Nat.eq_zero_or_pos n with hn | hn
        · subst hn
          rw [decodeSpecRuns_stop _ _ _ _ (by omega)]
          simp
        · rw [decodeSpecRuns_cons_pos rest v (by omega) hc]
          rw [show min c.toNat (pre.length + n - pre.length) = n by omega]
          rw [decodeSpecRuns_stop _ _ _ _ (by omega), List.append_nil]
      · rw [if_neg (by rw [hlen]; omega)]
        rw [show pre.length + min c.toNat n
            = (pre ++ List.replicate (min c.toNat n) v).length by simp]
        rw [ih (pre ++ List.replicate (min c.toNat n) v) (n - min c.toNat n) (!v)]
        rw [decodeSpecRuns_cons_pos rest v (by omega) hc]
        rw [show min c.toNat (pre.length + n - pre.length) = min c.toNat n by omega]
        rw [show (pre ++ List.replicate (min c.toNat n) v).length + (n - min c.toNat n)
            = pre.length + n by simp only [List.length_append, List.length_replicate]; omega]
        rw [show (pre ++ List.replicate (min c.toNat n) v).length
            = pre.length + min c.toNat n by simp]
        rw [List.append_assoc]

/-- C1 counterexample: the decoder does not produce `[F,T,F,F,T,T,F]` on the
run-length list `[0,1,1,2,3]` over a 1-row-by-7-column grid: the initial
zero-length run flips the current value to foreground, so decoding starts
with a foreground pixel. -/
theorem C1_counterexample :
    decode_brush_rle_to_mask [0, 1, 1, 2, 3] 7 1 ≠
      [[false, true, false, false, true, true, false]] := by
  decide

/-- C1 amended: decoding the run-length list `[0,1,1,2,3]` with the mask
decoder over a 1-row-by-7-column grid produces the boolean mask
`[T,F,T,T,F,F,F]` (the leading 0 flips the value to foreground, then runs of
1, 1, 2 and 3 alternate foreground/background). -/
theorem C1_decode_reference_scenario :
    decode_brush_rle_to_mask [0, 1, 1, 2, 3] 7 1 =
      [[true, false, true, true, false, false, false]] := by
  decide

/-- C2: for every run-length list and every width ≥ 1 and height ≥ 1, the
mask decoder agrees with the specification-level decoder in which a
non-positive run flips the current value without consuming positions and
without terminating iteration, a positive run `L` fills `min L remaining`
positions with the current value and then flips it, consumption stops at
`width*height`, and every uncovered position is background (false). -/
theorem C2_decoder_refines_run_spec (rle : List Int) (width height : Nat)
    (hw : 1 ≤ width) (hh : 1 ≤ height) :
    decode_brush_rle_to_mask rle width height = maskDecoderSpec rle width height := by
  clear hw hh
  unfold decode_brush_rle_to_mask maskDecoderSpec
  have h := decodeLoop_eq_spec rle [] (width * height) false
  simp only [List.length_nil, List.nil_append, Nat.zero_add] at h
  rw [h]

/-- Witness for C2 at the concrete reference input. -/
theorem C2_witness :
    1 ≤ 7 ∧ 1 ≤ 1 ∧
      decode_brush_rle_to_mask [0, 1, 1, 2, 3] 7 1 = maskDecoderSpec [0, 1, 1, 2, 3] 7 1 :=
  ⟨by decide, by decide,
    C2_decoder_refines_run_spec [0, 1, 1, 2, 3] 7 1 (by decide) (by decide)⟩

theorem mem_rowTrueCols {row : List Bool} {x : Nat} :
    x ∈ rowTrueCols row ↔ row.getD x false = true := by
  unfold rowTrueCols
  rw [List.mem_filterMap]
  constructor
  · rintro ⟨x', _, hfx⟩
    by_cases hb : row.getD x' false
    · rw [if_pos hb, Option.some_inj] at hfx
      subst hfx
      exact hb
    · rw [if_neg hb] at hfx
      cases hfx
  · intro h
    have hx : x < row.length := by
      by_contra hx
      rw [List.getD_eq_default _ _ (by omega)] at h
      cases h
    exact ⟨x, List.mem_range.mpr hx, by rw [if_pos h]⟩

theorem mem_truePixels {mask : List (List Bool)} {y x : Nat} :
    (y, x) ∈ truePixels mask ↔ pixelTrue mask y x := by
  unfold truePixels pixelTrue
  rw [List.mem_flatMap]
  constructor
  · rintro ⟨y', _, hy'⟩
    rw [List.mem_map] at hy'
    obtain ⟨x', hx', hpair⟩ := hy'
    obtain ⟨rfl, rfl⟩ := Prod.mk.injEq .. ▸ hpair
    exact mem_rowTrueCols.mp hx'
  · intro h
    have hy : y < mask.length := by
      by_contra hy
      rw [show mask.getD y [] = [] from List.getD_eq_default _ _ (by omega)] at h
      rw [show ([] : List Bool).getD x false = false from
        List.getD_eq_default _ _ (Nat.zero_le x)] at h
      cases h
    exact ⟨y, List.mem_range.mpr hy, List.mem_map.mpr ⟨x, mem_rowTrueCols.mpr h, rfl⟩⟩

theorem length_filterMap_ite {α β : Type _} (p : α → Bool) (g : α → β) (l : List α) :
    (l.filterMap fun a => if p a then some (g a) else none).length = l.countP p := by
  induction l with
  | nil => rfl
  | cons a t ih =>
    by_cases h : p a <;> simp [List.filterMap_cons, h, ih, List.countP_cons]

theorem countP_range_getD (row : List Bool) :
    (List.range row.length).countP (fun x => row.getD x false) = row.count true := by
  induction row with
  | nil => rfl
  | cons b t ih =>
    rw [List.length_cons, List.range_succ_eq_map, List.countP_cons, List.countP_map]
    have hcomp : ((fun x => (b :: t).getD x false) ∘ Nat.succ) = fun x => t.getD x false := by
      funext x
      simp [Function.comp, List.getD_cons_succ]
    rw [hcomp, ih, List.count_cons, List.getD_cons_zero]
    cases b <;> simp

theorem length_rowTrueCols (row : List Bool) :
    (rowTrueCols row).length = row.count true := by
  unfold rowTrueCols
  rw [show (fun x => if row.getD x false then some x else none)
      = (fun x => if (fun x => row.getD x false) x then some (id x) else none) by rfl]
  rw [length_filterMap_ite (fun x => row.getD x false) id]
  exact countP_range_getD row

theorem map_range_getD {α β : Type _} (l : List α) (d : α) (g : α → β) :
    (List.range l.length).map (fun i => g (l.getD i d)) = l.map g := by
  induction l with
  | nil => rfl
  | cons a t ih =>
    rw [List.length_cons, List.range_succ_eq_map, List.map_cons, List.map_map]
    have hcomp : ((fun i => g ((a :: t).getD i d)) ∘ Nat.succ) = fun i => g (t.getD i d) := by
      funext i
      simp [Function.comp, List.getD_cons_succ]
    rw [hcomp, ih, List.getD_cons_zero]
    rfl

theorem length_truePixels (mask : List (List Bool)) :
    (truePixels mask).length = maskSum mask := by
  unfold truePixels maskSum
  rw [List.length_flatMap]
  have h1 : (List.map (List.length ∘ fun y =>
        (rowTrueCols (mask.getD y [])).map fun x => (y, x)) (List.range mask.length))
      = (List.range mask.length).map fun y => (mask.getD y []).count true := by
    apply List.map_congr_left
    intro y _
    simp [Function.comp, length_rowTrueCols]
  rw [h1, map_range_getD mask [] (fun row => row.count true)]

theorem foldl_min_le {t : List Nat} {x a : Nat} (hx : x ∈ t) : List.foldl min a t ≤ x := by
  induction t generalizing a with
  | nil => cases hx
  | cons b t ih =>
    rcases List.mem_cons.mp hx with rfl | hx'
    · calc List.foldl min (min a x) t ≤ min a x := by
            clear hx ih
            induction t generalizing a x with
            | nil => simp
            | cons c t ih => exact le_trans (ih ..) (min_le_left _ _)
        _ ≤ x := min_le_right _ _
    · exact ih hx'

theorem foldl_min_le_init (t : List Nat) (a : Nat) : List.foldl min a t ≤ a := by
  induction t generalizing a with
  | nil => simp
  | cons c t ih => exact le_trans (ih _) (min_le_left _ _)

theorem foldl_min_mem (t : List Nat) : ∀ a, List.foldl min a t = a ∨ List.foldl min a t ∈ t := by
  induction t with
  | nil => intro a; left; rfl
  | cons b t ih =>
    intro a
    rcases ih (min a b) with h | h
    · rcases min_choice a b with hab | hab
      · left
        rw [List.foldl_cons, h, hab]
      · right
        rw [List.foldl_cons, h, hab]
        exact List.mem_cons_self _ _
    · right
      exact List.mem_cons_of_mem _ h

theorem le_foldl_max {t : List Nat} {x a : Nat} (hx : x ∈ t) : x ≤ List.foldl max a t := by
  induction t generalizing a with
  | nil => cases hx
  | cons b t ih =>
    rcases List.mem_cons.mp hx with rfl | hx'
    · calc x ≤ max a x := le_max_right _ _
        _ ≤ List.foldl max (max a x) t := by
            clear hx ih
            induction t generalizing a x with
            | nil => simp
            | cons c t ih => exact le_trans (le_max_left _ _) (ih ..)
    · exact ih hx'

theorem foldl_max_mem (t : List Nat) : ∀ a, List.foldl max a t = a ∨ List.foldl max a t ∈ t := by
  induction t with
  | nil => intro a; left; rfl
  | cons b t ih =>
    intro a
    rcases ih (max a b) with h | h
    · rcases max_choice a b with hab | hab
      · left
        rw [List.foldl_cons, h, hab]
      · right
        rw [List.foldl_cons, h, hab]
        exact List.mem_cons_self _ _
    · right
      exact List.mem_cons_of_mem _ h

theorem listMinN_le {l : List Nat} {x : Nat} (hx : x ∈ l) : listMinN l ≤ x := by
  cases l with
  | nil => cases hx
  | cons a t =>
    rcases List.mem_cons.mp hx with rfl | hx'
    · exact foldl_min_le_init t x
    · exact foldl_min_le hx'

theorem listMinN_mem {l : List Nat} (h : l ≠ []) : listMinN l ∈ l := by
  cases l with
  | nil => cases h rfl
  | cons a t =>
    rcases foldl_min_mem t a with h' | h'
    · rw [listMinN, h']
      exact List.mem_cons_self _ _
    · exact List.mem_cons_of_mem _ h'

theorem le_foldl_max_init (t : List Nat) (a : Nat) : a ≤ List.foldl max a t := by
  induction t generalizing a with
  | nil => simp
  | cons c t ih => exact le_trans (le_max_left _ _) (ih _)

theorem listMaxN_le {l : List Nat} {x : Nat} (hx : x ∈ l) : x ≤ listMaxN l := by
  cases l with
  | nil => cases hx
  | cons a t =>
    rcases List.mem_cons.mp hx with rfl | hx'
    · exact le_foldl_max_init t x
    · exact le_foldl_max hx'

theorem listMaxN_mem {l : List Nat} (h : l ≠ []) : listMaxN l ∈ l := by
  cases l with
  | nil => cases h rfl
  | cons a t =>
    rcases foldl_max_mem t a with h' | h'
    · rw [listMaxN, h']
      exact List.mem_cons_self _ _
    · exact List.mem_cons_of_mem _ h'

/-- C3: the geometry analyzer returns all zeros on a mask with no true pixel;
otherwise `bbox_x`/`bbox_y` are the least column/row of a true pixel,
`bbox_x + extent_width` / `bbox_y + extent_height` are the greatest column/row
of a true pixel (the span convention `max - min`, not `max - min + 1`), and
`area` is the exact count of true pixels. -/
theorem C3_bbox_and_area (mask : List (List Bool)) (x y w h a : Nat)
    (heq : compute_bbox_and_area mask = (x, y, w, h, a)) :
    ((∀ i j, ¬ pixelTrue mask i j) → (x, y, w, h, a) = (0, 0, 0, 0, 0)) ∧
    ((∃ i j, pixelTrue mask i j) →
      ((∃ i, pixelTrue mask i x) ∧ (∀ i j, pixelTrue mask i j → x ≤ j) ∧
       (∃ j, pixelTrue mask y j) ∧ (∀ i j, pixelTrue mask i j → y ≤ i) ∧
       (∃ i, pixelTrue mask i (x + w)) ∧ (∀ i j, pixelTrue mask i j → j ≤ x + w) ∧
       (∃ j, pixelTrue mask (y + h) j) ∧ (∀ i j, pixelTrue mask i j → i ≤ y + h))) ∧
    a = (truePixels mask).length := by
  constructor
  · intro hnone
    have hempty : truePixels mask = [] := by
      rcases hl : truePixels mask with _ | ⟨⟨i, j⟩, t⟩
      · rfl
      · exact absurd (mem_truePixels.mp (hl ▸ List.mem_cons_self _ _)) (hnone i j)
    rw [compute_bbox_and_area, hempty] at heq
    simp only [List.map_nil, List.isEmpty_nil, Bool.or_self, if_pos, Prod.mk.injEq] at heq
    obtain ⟨rfl, rfl, rfl, rfl, rfl⟩ := heq
    rfl
  constructor
  · rintro ⟨i, j, hij⟩
    have hne : truePixels mask ≠ [] := fun hc => by
      rw [← mem_truePixels] at hij
      rw [hc] at hij
      cases hij
    have hxs : (truePixels mask).map Prod.snd ≠ [] := by
      simpa using hne
    have hys : (truePixels mask).map Prod.fst ≠ [] := by
      simpa using hne
    rw [compute_bbox_and_area, if_neg (by simp [List.isEmpty_iff, hxs, hys])] at heq
    simp only [Prod.mk.injEq] at heq
    obtain ⟨rfl, rfl, rfl, rfl, rfl⟩ := heq
    have hminx_mem := listMinN_mem hxs
    have hminy_mem := listMinN_mem hys
    have hmaxx_mem := listMaxN_mem hxs
    have hmaxy_mem := listMaxN_mem hys
    have hget : ∀ {c : Nat}, c ∈ (truePixels mask).map Prod.snd → ∃ i, pixelTrue mask i c := by
      intro c hc
      obtain ⟨⟨i', j'⟩, hp, hpe⟩ := List.mem_map.mp hc
      exact ⟨i', by cases hpe; exact mem_truePixels.mp hp⟩
    have hgety : ∀ {r : Nat}, r ∈ (truePixels mask).map Prod.fst → ∃ j, pixelTrue mask r j := by
      intro r hr
      obtain ⟨⟨i', j'⟩, hp, hpe⟩ := List.mem_map.mp hr
      exact ⟨j', by cases hpe; exact mem_truePixels.mp hp⟩
    have hboundx : ∀ i j, pixelTrue mask i j →
        listMinN ((truePixels mask).map Prod.snd) ≤ j ∧
          j ≤ listMaxN ((truePixels mask).map Prod.snd) := by
      intro i j hij'
      have : j ∈ (truePixels mask).map Prod.snd :=
        List.mem_map.mpr ⟨(i, j), mem_truePixels.mpr hij', rfl⟩
      exact ⟨listMinN_le this, listMaxN_le this⟩
    have hboundy : ∀ i j, pixelTrue mask i j →
        listMinN ((truePixels mask).map Prod.fst) ≤ i ∧
          i ≤ listMaxN ((truePixels mask).map Prod.fst) := by
      intro i j hij'
      have : i ∈ (truePixels mask).map Prod.fst :=
        List.mem_map.mpr ⟨(i, j), mem_truePixels.mpr hij', rfl⟩
      exact ⟨listMinN_le this, listMaxN_le this⟩
    have hminmaxx : listMinN ((truePixels mask).map Prod.snd)
        ≤ listMaxN ((truePixels mask).map Prod.snd) := listMinN_le hmaxx_mem
    have hminmaxy : listMinN ((truePixels mask).map Prod.fst)
        ≤ listMaxN ((truePixels mask).map Prod.fst) := listMinN_le hmaxy_mem
    refine ⟨hget hminx_mem, fun i j hij' => (hboundx i j hij').1,
      hgety hminy_mem, fun i j hij' => (hboundy i j hij').1, ?_, ?_, ?_, ?_⟩
    · rw [show listMinN ((truePixels mask).map Prod.snd) +
          max 0 (listMaxN ((truePixels mask).map Prod.snd) -
            listMinN ((truePixels mask).map Prod.snd))
          = listMaxN ((truePixels mask).map Prod.snd) by omega]
      exact hget hmaxx_mem
    · intro i j hij'
      have := (hboundx i j hij').2
      omega
    · rw [show listMinN ((truePixels mask).map Prod.fst) +
          max 0 (listMaxN ((truePixels mask).map Prod.fst) -
            listMinN ((truePixels mask).map Prod.fst))
          = listMaxN ((truePixels mask).map Prod.fst) by omega]
      exact hgety hmaxy_mem
    · intro i j hij'
      have := (hboundy i j hij').2
      omega
  · rw [compute_bbox_and_area] at heq
    rw [length_truePixels]
    by_cases hcase : ((truePixels mask).map Prod.snd).isEmpty
        || ((truePixels mask).map Prod.fst).isEmpty
    · rw [if_pos hcase] at heq
      have hempty : truePixels mask = [] := by
        rcases hl : truePixels mask with _ | ⟨p, t⟩
        · rfl
        · rw [hl] at hcase
          simp at hcase
      simp only [Prod.mk.injEq] at heq
      obtain ⟨-, -, -, -, rfl⟩ := heq
      rw [← length_truePixels, hempty]
      rfl
    · rw [if_neg hcase] at heq
      obtain ⟨_, _, _, _, rfl⟩ := Prod.mk.injEq .. ▸ heq
      rfl

/-- Witness for C3 at a concrete mask. -/
theorem C3_witness :
    compute_bbox_and_area [[false, true], [true, true]] = (0, 0, 1, 1, 3) ∧
      (∃ i j, pixelTrue [[false, true], [true, true]] i j) ∧
      (3 : Nat) = (truePixels [[false, true], [true, true]]).length := by
  refine ⟨by decide, ⟨1, 0, by decide⟩, ?_⟩
  exact (C3_bbox_and_area [[false, true], [true, true]] 0 0 1 1 3 (by decide)).2.2

/-- C7: the intensity aggregator returns four absent means on a mask with
zero true pixels, and on a single-channel image it returns the gray mean
(the masked average of the luminance channel) together with absent R, G and
B means. -/
theorem C7_intensities (image : PImage) (mask : List (List Bool)) :
    (maskSum mask = 0 → compute_intensities image mask = (none, none, none, none)) ∧
    ((image.mode = "L" ∨ image.mode = "I" ∨ image.mode = "I;16" ∨ image.mode = "F") →
      maskSum mask ≠ 0 →
      compute_intensities image mask =
        (some (meanOver image.grayAt (truePixels mask)), none, none, none)) := by
  constructor
  · intro h
    rw [compute_intensities, if_pos h]
  · intro hmode h
    have hne : truePixels mask ≠ [] := by
      intro hc
      apply h
      rw [← length_truePixels, hc]
      rfl
    rw [compute_intensities, if_neg h]
    simp only [if_pos hmode, if_pos hne]

/-- Witness for C7: the zero-mask branch evaluated at a concrete image and
mask. -/
theorem C7_witness :
    maskSum [[false]] = 0 ∧
      compute_intensities grayProbeImage [[false]] = (none, none, none, none) :=
  ⟨by decide, (C7_intensities grayProbeImage [[false]]).1 (by decide)⟩

/-- C8: for every polygon-fill collaborator and every width ≥ 1 and
height ≥ 1, rasterizing the empty vertex list yields the all-false mask of
shape (height, width): `height` rows, each of `width` entries, all false.  It
is a total function of its inputs, so no error is signalled. -/
theorem C8_rasterize_empty (polyFill : List (Int × Int) → Nat → Nat → List (List Bool))
    (width height : Nat) (hw : 1 ≤ width) (hh : 1 ≤ height) :
    rasterize_polygon polyFill [] width height = zeroMask width height ∧
      (rasterize_polygon polyFill [] width height).length = height ∧
      ∀ row ∈ rasterize_polygon polyFill [] width height,
        row.length = width ∧ ∀ b ∈ row, b = false := by
  clear hw hh
  refine ⟨rfl, by simp [rasterize_polygon, zeroMask], ?_⟩
  intro row hrow
  rw [show rasterize_polygon polyFill [] width height = zeroMask width height from rfl,
    zeroMask] at hrow
  obtain ⟨-, rfl⟩ := List.mem_replicate.mp hrow
  exact ⟨by simp, fun b hb => (List.mem_replicate.mp hb).2⟩

/-- Witness for C8 at concrete size 2×2 and a concrete fill collaborator. -/
theorem C8_witness :
    1 ≤ 2 ∧
      (rasterize_polygon (fun _ _ _ => []) [] 2 2 = zeroMask 2 2 ∧
        (rasterize_polygon (fun _ _ _ => []) [] 2 2).length = 2 ∧
        ∀ row ∈ rasterize_polygon (fun _ _ _ => []) [] 2 2,
          row.length = 2 ∧ ∀ b ∈ row, b = false) :=
  ⟨by decide, C8_rasterize_empty (fun _ _ _ => []) 2 2 (by decide) (by decide)⟩

/-- The per-annotation run succeeds exactly when the result fold does, and
returns its row list. -/
theorem processAnnotation_eq_ok {ctx : Ctx} {data : List (String × String)}
    {task_id : Option Int} {ann : Annotation} {rows : List (String × Row)} :
    processAnnotation ctx data task_id ann = Except.ok rows ↔
    ∃ st, ann.result.foldlM (processResult ctx data task_id ann.id
        (prescan ctx ann.result).1 (prescan ctx ann.result).2) ([], []) = Except.ok st ∧
      st.2 = rows := by
  unfold processAnnotation
  rcases hf : ann.result.foldlM (processResult ctx data task_id ann.id
      (prescan ctx ann.result).1 (prescan ctx ann.result).2) ([], []) with e | st
  · simp [hf]
  · simp [hf]

/-- Every iteration of the result loop either skips (state unchanged),
raises on a malformed polygon payload, or emits exactly one new row whose
region id is fresh and recorded, with the textarea override applied to the
means whenever one exists for that region id. -/
theorem processResult_shape (ctx : Ctx) (data : List (String × String))
    (task_id ann_id : Option Int) (labelMap : List (String × String))
    (textMap : List (String × Rat)) (st : List String × List (String × Row))
    (res : Result) :
    processResult ctx data task_id ann_id labelMap textMap st res = Except.ok st ∨
    (processResult ctx data task_id ann_id labelMap textMap st res = Except.error () ∧
      res.value.points = some PointsField.malformed) ∨
    (∃ key row rid, processResult ctx data task_id ann_id labelMap textMap st res
        = Except.ok (rid :: st.1, st.2 ++ [(key, row)]) ∧
      row.region_id = rid ∧ rid ∉ st.1 ∧
      (∀ v, textMap.lookup rid = some v →
        row.mean_gray = some v ∧ row.mean_r = none ∧ row.mean_g = none ∧
          row.mean_b = none)) := by
  simp only [processResult]
  split
  · left; rfl
  · split
    · left; rfl
    · split
      · left; rfl
      · split
        · -- mask branch
          split
          · -- decodable rle payload: emit
            right; right
            refine ⟨_, _, _, rfl, rfl, by assumption, ?_⟩
            intro v hv
            refine ⟨?_, ?_, ?_, ?_⟩ <;> simp only [mkRow, regionMeans, hv]
          · left; rfl
          · left; rfl
        · split
          · -- polygon branch
            split
            · right; right
              refine ⟨_, _, _, rfl, rfl, by assumption, ?_⟩
              intro v hv
              refine ⟨?_, ?_, ?_, ?_⟩ <;> simp only [mkRow, regionMeans, hv]
            · -- malformed points: uncaught exception
              right; left
              refine ⟨rfl, ?_⟩
              rename_i hpts
              cases hp : res.value.points with
              | none => rw [hp] at hpts; cases hpts
              | some f =>
                cases f with
                | pairs l => rw [hp] at hpts; cases hpts
                | malformed => rfl
          · left; rfl

/-- The result-loop fold preserves: every emitted row's region id is in the
processed set, the emitted region ids are pairwise distinct, and every
emitted row's means obey the textarea override. -/
theorem foldlM_processResult_invariant (ctx : Ctx) (data : List (String × String))
    (task_id ann_id : Option Int) (lm : List (String × String))
    (tm : List (String × Rat)) (results : List Result) :
    ∀ (st st' : List String × List (String × Row)),
      results.foldlM (processResult ctx data task_id ann_id lm tm) st = Except.ok st' →
      (∀ kr ∈ st.2, kr.2.region_id ∈ st.1) →
      (st.2.map fun kr => kr.2.region_id).Nodup →
      (∀ kr ∈ st.2, ∀ v, tm.lookup kr.2.region_id = some v →
        kr.2.mean_gray = some v ∧ kr.2.mean_r = none ∧ kr.2.mean_g = none ∧
          kr.2.mean_b = none) →
      ((∀ kr ∈ st'.2, kr.2.region_id ∈ st'.1) ∧
       (st'.2.map fun kr => kr.2.region_id).Nodup ∧
       (∀ kr ∈ st'.2, ∀ v, tm.lookup kr.2.region_id = some v →
         kr.2.mean_gray = some v ∧ kr.2.mean_r = none ∧ kr.2.mean_g = none ∧
           kr.2.mean_b = none)) := by
  induction results with
  | nil =>
    intro st st' h h1 h2 h3
    rw [List.foldlM_nil] at h
    cases h
    exact ⟨h1, h2, h3⟩
  | cons r rs ih =>
    intro st st' h h1 h2 h3
    rw [List.foldlM_cons] at h
    rcases processResult_shape ctx data task_id ann_id lm tm st r with hc | ⟨hc, -⟩ |
      ⟨key, row, rid, hc, hrid, hnotin, hovr⟩
    · rw [hc] at h
      exact ih st st' h h1 h2 h3
    · rw [hc] at h
      exact Except.noConfusion h
    · rw [hc] at h
      apply ih _ st' h
      · intro kr hkr
        rcases List.mem_append.mp hkr with hold | hnew
        · exact List.mem_cons_of_mem _ (h1 kr hold)
        · rw [List.mem_singleton.mp hnew]
          rw [show ((key, row) : String × Row).2.region_id = rid from hrid]
          exact List.mem_cons_self _ _
      · rw [List.map_append, List.map_singleton]
        apply List.Nodup.append h2 (List.nodup_singleton _)
        intro b hb hb'
        rw [List.mem_singleton.mp hb'] at hb
        obtain ⟨kr, hkr, hkre⟩ := List.mem_map.mp hb
        rw [show ((key, row) : String × Row).2.region_id = rid from hrid] at hkre
        exact hnotin (hkre ▸ h1 kr hkr)
      · intro kr hkr
        rcases List.mem_append.mp hkr with hold | hnew
        · exact h3 kr hold
        · rw [List.mem_singleton.mp hnew]
          intro v hv
          rw [show ((key, row) : String × Row).2.region_id = rid from hrid] at hv
          exact hovr v hv

/-- C5: within a single annotation a region id is processed at most once:
the region ids of the emitted rows of one annotation are pairwise distinct
(a second result carrying an already-processed region id is dropped). -/
theorem C5_region_dedup (ctx : Ctx) (data : List (String × String))
    (task_id : Option Int) (ann : Annotation) (rows : List (String × Row))
    (h : processAnnotation ctx data task_id ann = Except.ok rows) :
    (rows.map fun kr => kr.2.region_id).Nodup := by
  obtain ⟨st, hf, rfl⟩ := processAnnotation_eq_ok.mp h
  exact (foldlM_processResult_invariant ctx data task_id ann.id
    (prescan ctx ann.result).1 (prescan ctx ann.result).2 ann.result
    ([], []) st hf (by simp) (by simp) (by simp)).2.1

/-- C6: every emitted row whose region id has a textarea override in the
annotation's pre-scan carries the override as its gray mean and has absent
R, G and B means. -/
theorem C6_textarea_override (ctx : Ctx) (data : List (String × String))
    (task_id : Option Int) (ann : Annotation) (rows : List (String × Row))
    (h : processAnnotation ctx data task_id ann = Except.ok rows) :
    ∀ kr ∈ rows, ∀ v, (prescan ctx ann.result).2.lookup kr.2.region_id = some v →
      kr.2.mean_gray = some v ∧ kr.2.mean_r = none ∧ kr.2.mean_g = none ∧
        kr.2.mean_b = none := by
  obtain ⟨st, hf, rfl⟩ := processAnnotation_eq_ok.mp h
  exact (foldlM_processResult_invariant ctx data task_id ann.id
    (prescan ctx ann.result).1 (prescan ctx ann.result).2 ann.result
    ([], []) st hf (by simp) (by simp) (by simp)).2.2

theorem processResult_wf_ok (ctx : Ctx) (data : List (String × String))
    (task_id ann_id : Option Int) (lm : List (String × String))
    (tm : List (String × Rat)) (st : List String × List (String × Row)) (res : Result)
    (hres : res.value.points ≠ some PointsField.malformed) :
    ∃ st', processResult ctx data task_id ann_id lm tm st res = Except.ok st' := by
  rcases processResult_shape ctx data task_id ann_id lm tm st res with hc | ⟨-, hpts⟩ |
    ⟨key, row, rid, hc, -, -, -⟩
  · exact ⟨st, hc⟩
  · exact absurd hpts hres
  · exact ⟨_, hc⟩

theorem foldlM_processResult_ok (ctx : Ctx) (data : List (String × String))
    (task_id ann_id : Option Int) (lm : List (String × String))
    (tm : List (String × Rat)) (results : List Result) :
    ∀ (st : List String × List (String × Row)),
      (∀ res ∈ results, res.value.points ≠ some PointsField.malformed) →
      ∃ st', results.foldlM (processResult ctx data task_id ann_id lm tm) st
        = Except.ok st' := by
  induction results with
  | nil =>
    intro st _
    exact ⟨st, by rw [List.foldlM_nil]; rfl⟩
  | cons r rs ih =>
    intro st h
    obtain ⟨st1, h1⟩ := processResult_wf_ok ctx data task_id ann_id lm tm st r
      (h r (List.mem_cons_self _ _))
    obtain ⟨st', h'⟩ := ih st1 (fun res hres => h res (List.mem_cons_of_mem _ hres))
    refine ⟨st', ?_⟩
    rw [List.foldlM_cons, h1]
    exact h'

theorem processAnnotation_wf_ok (ctx : Ctx) (data : List (String × String))
    (task_id : Option Int) (ann : Annotation)
    (h : ∀ res ∈ ann.result, res.value.points ≠ some PointsField.malformed) :
    ∃ rows, processAnnotation ctx data task_id ann = Except.ok rows := by
  obtain ⟨st, hst⟩ := foldlM_processResult_ok ctx data task_id ann.id
    (prescan ctx ann.result).1 (prescan ctx ann.result).2 ann.result ([], []) h
  exact ⟨st.2, processAnnotation_eq_ok.mpr ⟨st, hst, rfl⟩⟩

theorem processTask_wf_ok (ctx : Ctx) (task : Task)
    (h : ∀ ann ∈ task.annotations, ∀ res ∈ ann.result,
      res.value.points ≠ some PointsField.malformed) :
    ∃ rows, processTask ctx task = Except.ok rows := by
  unfold processTask
  suffices hgen : ∀ (anns : List Annotation) (acc : List (String × Row)),
      (∀ ann ∈ anns, ∀ res ∈ ann.result, res.value.points ≠ some PointsField.malformed) →
      ∃ rows, anns.foldlM (fun acc ann =>
        match processAnnotation ctx task.data task.id ann with
        | .ok rows => Except.ok (acc ++ rows)
        | .error e => Except.error e) acc = Except.ok rows by
    exact hgen task.annotations [] h
  intro anns
  induction anns with
  | nil =>
    intro acc _
    exact ⟨acc, by rw [List.foldlM_nil]; rfl⟩
  | cons a anns ih =>
    intro acc h'
    obtain ⟨r, hr⟩ := processAnnotation_wf_ok ctx task.data task.id a
      (h' a (List.mem_cons_self _ _))
    obtain ⟨rows, hrows⟩ := ih (acc ++ r) (fun ann hann => h' ann (List.mem_cons_of_mem _ hann))
    refine ⟨rows, ?_⟩
    rw [List.foldlM_cons, hr]
    exact hrows

/-- C4 (amended): a region whose run-length payload raises inside the guarded
decode is skipped without touching the batch state, and, when no polygon
payload in the batch is malformed, no error escapes the export: it returns
an output whose explanatory note file is present exactly when zero rows were
produced.  (Malformed polygon payloads, by contrast, raise an uncaught
exception: see the counterexample.) -/
theorem C4_error_containment (ctx : Ctx) (tasks : List Task)
    (hok : ∀ task ∈ tasks, ∀ ann ∈ task.annotations, ∀ res ∈ ann.result,
      res.value.points ≠ some PointsField.malformed) :
    (∃ out, export_segmentation_metrics ctx tasks = Except.ok out ∧
      (out.noteFile = true ↔ out.rows = [])) ∧
    (∀ (data : List (String × String)) (task_id ann_id : Option Int)
       (lm : List (String × String)) (tm : List (String × Rat))
       (st : List String × List (String × Row)) (res : Result),
      isMaskResult res = true →
      (res.value.rle = some RleField.badList ∨ res.value.rle = some RleField.nonList) →
      processResult ctx data task_id ann_id lm tm st res = Except.ok st) := by
  constructor
  · suffices hgen : ∀ (ts : List Task) (acc : List (String × Row)),
        (∀ task ∈ ts, ∀ ann ∈ task.annotations, ∀ res ∈ ann.result,
          res.value.points ≠ some PointsField.malformed) →
        ∃ rows, ts.foldlM (fun acc task =>
          match processTask ctx task with
          | .ok r => Except.ok (acc ++ r)
          | .error e => Except.error e) acc = Except.ok rows by
      obtain ⟨rows, hrows⟩ := hgen tasks [] hok
      refine ⟨{ rows := rows, noteFile := rows.isEmpty }, ?_, ?_⟩
      · unfold export_segmentation_metrics
        rw [hrows]
      · simp [List.isEmpty_iff]
    intro ts
    induction ts with
    | nil =>
      intro acc _
      exact ⟨acc, by rw [List.foldlM_nil]; rfl⟩
    | cons t ts ih =>
      intro acc h'
      obtain ⟨r, hr⟩ := processTask_wf_ok ctx t (h' t (List.mem_cons_self _ _))
      obtain ⟨rows, hrows⟩ := ih (acc ++ r)
        (fun task htask => h' task (List.mem_cons_of_mem _ htask))
      refine ⟨rows, ?_⟩
      rw [List.foldlM_cons, hr]
      exact hrows
  · intro data task_id ann_id lm tm st res hmask hbad
    simp only [processResult]
    split
    · rfl
    · split
      · rfl
      · split
        · rfl
        · rcases hbad with hbad | hbad <;> rw [hbad] <;> rfl

/-- C4 counterexample: a malformed polygon payload is not skipped: the
conversion `for x_perc, y_perc in points` is outside any try/except, so the
exception escapes the batch. -/
theorem C4_counterexample :
    export_segmentation_metrics plainCtx [malformedPolygonTask] = Except.error () := by
  rfl

/-- Witness for C4 at a concrete batch containing a malformed run-length
payload: the export completes with zero rows and the note file. -/
theorem C4_witness :
    (∀ task ∈ [malformedRleTask], ∀ ann ∈ task.annotations, ∀ res ∈ ann.result,
      res.value.points ≠ some PointsField.malformed) ∧
    (∃ out, export_segmentation_metrics plainCtx [malformedRleTask] = Except.ok out ∧
      (out.noteFile = true ↔ out.rows = [])) :=
  ⟨by decide, (C4_error_containment plainCtx [malformedRleTask] (by decide)).1⟩

theorem rowTrueCols_allFalse {row : List Bool} (h : ∀ b ∈ row, b = false) :
    rowTrueCols row = [] := by
  unfold rowTrueCols
  rw [List.filterMap_eq_nil_iff]
  intro x hx
  have hxlt := List.mem_range.mp hx
  rw [List.getD_eq_getElem _ _ hxlt, h _ (List.getElem_mem hxlt)]
  rfl

theorem truePixels_allFalse {mask : List (List Bool)}
    (h : ∀ row ∈ mask, ∀ b ∈ row, b = false) : truePixels mask = [] := by
  unfold truePixels
  rw [List.flatMap_eq_nil_iff]
  intro y hy
  rw [List.map_eq_nil_iff]
  apply rowTrueCols_allFalse
  have hylt := List.mem_range.mp hy
  rw [List.getD_eq_getElem _ _ hylt]
  exact h _ (List.getElem_mem hylt)

theorem reshape_replicate_false_rows {w h n : Nat} :
    ∀ row ∈ reshape (List.replicate n false) w h, ∀ b ∈ row, b = false := by
  intro row hrow
  unfold reshape at hrow
  obtain ⟨r, -, rfl⟩ := List.mem_map.mp hrow
  intro b hb
  exact (List.mem_replicate.mp (List.mem_of_mem_drop (List.mem_of_mem_take hb))).2

theorem decode_nil_truePixels (w h : Nat) :
    truePixels (decode_brush_rle_to_mask [] w h) = [] :=
  truePixels_allFalse reshape_replicate_false_rows

theorem decode_nil_bbox (w h : Nat) :
    compute_bbox_and_area (decode_brush_rle_to_mask [] w h) = (0, 0, 0, 0, 0) := by
  unfold compute_bbox_and_area
  rw [decode_nil_truePixels]
  rfl

theorem decode_nil_maskSum (w h : Nat) :
    maskSum (decode_brush_rle_to_mask [] w h) = 0 := by
  rw [← length_truePixels, decode_nil_truePixels]
  rfl

theorem regionMeans_empty_mask (ctx : Ctx) (tm : List (String × Rat)) (rid : String)
    (source : ImageSource) (mask : List (List Bool))
    (htm : tm.lookup rid = none) (hm : maskSum mask = 0) :
    regionMeans ctx tm rid source mask = (none, none, none, none) := by
  unfold regionMeans
  rw [htm]
  cases ctx.openImage source with
  | none => rfl
  | some img =>
    show compute_intensities img mask = (none, none, none, none)
    unfold compute_intensities
    rw [if_pos hm]

theorem resolveImageUrl_single (ctx : Ctx) (kf url : String) (res : Result)
    (hurl : url ≠ "") : resolveImageUrl ctx [(kf, url)] res = some url := by
  unfold resolveImageUrl pyOrStr
  cases hk : ctx.configKey (res.to_name.getD "") with
  | none => simp [List.lookup_cons, hurl]
  | some k =>
    by_cases hk0 : k = ""
    · subst hk0
      simp [List.lookup_cons, hurl]
    · by_cases hkk : k = kf
      · subst hkk
        simp [hk0, List.lookup_cons, hurl]
      · have hbeq : (k == kf) = false := beq_eq_false_iff_ne.mpr hkk
        simp [hk0, List.lookup_cons, hbeq, hurl]

theorem prescan_single_textMap (ctx : Ctx) (res : Result)
    (hty : res.rtype ≠ some "textarea") : (prescan ctx [res]).2 = [] := by
  unfold prescan
  rw [List.foldl_cons, List.foldl_nil]
  unfold prescanStep
  cases res.id with
  | none => rfl
  | some rid => simp [hty]

/-- C9: a mask-shaped (brushlabels) result whose rle entry is missing, null
(both `none` in the model) or the empty list is not skipped: the empty
run-length list decodes to the all-false mask and a row is emitted with zero
bbox origin, zero extents, zero area, and absent intensity means. -/
theorem C9_missing_rle_emits_row (ctx : Ctx) (kf url rid : String)
    (task_id aid : Option Int) (res : Result) (w h : Nat)
    (hurl : url ≠ "") (hid : res.id = some rid) (hty : res.rtype = some "brushlabels")
    (hrle : res.value.rle = none ∨ res.value.rle = some (RleField.ints []))
    (hw : res.original_width = some w)
    (hh : res.original_height = some h) (hw0 : w ≠ 0) (hh0 : h ≠ 0) :
    processAnnotation ctx [(kf, url)] task_id { id := aid, result := [res] } =
      Except.ok [(rowKey (ctx.resolveSource url) task_id,
        { image_filename := (ctx.resolveSource url).filename, task_id := task_id,
          annotation_id := aid, region_id := rid,
          label := maskLabel res.value (prescan ctx [res]).1 rid,
          shape_type := "mask", bbox_x := 0, bbox_y := 0, x_length := 0,
          y_length := 0, area := 0, mean_gray := none, mean_r := none,
          mean_g := none, mean_b := none, polygon_points_px := [] })] := by
  have htm : (prescan ctx [res]).2 = [] := by
    apply prescan_single_textMap
    rw [hty]
    decide
  have hsz : resolveSize ctx (ctx.resolveSource url) res = (w, h) := by
    unfold resolveSize pyOrNat
    rw [hw, hh]
    simp [hw0, hh0]
  have hrid : regionIdStr res = rid := by
    unfold regionIdStr
    rw [hid]
  have hmask : isMaskResult res = true := by
    unfold isMaskResult
    rw [hty]
    simp [show asciiLower "brushlabels" = "brushlabels" from by decide]
  have hstep : processResult ctx [(kf, url)] task_id aid (prescan ctx [res]).1
      (prescan ctx [res]).2 ([], []) res
      = Except.ok ([rid], [(rowKey (ctx.resolveSource url) task_id,
          mkRow (ctx.resolveSource url) task_id aid rid
            (maskLabel res.value (prescan ctx [res]).1 rid) "mask"
            (0, 0, 0, 0, 0) (none, none, none, none) [])]) := by
    simp only [processResult, resolveImageUrl_single ctx kf url res hurl]
    rw [hsz]
    rw [if_neg (by simp [hw0, hh0])]
    rw [hrid]
    rw [if_neg (List.not_mem_nil rid)]
    rw [if_pos hmask]
    rcases hrle with hrle | hrle
    all_goals
      rw [hrle]
      show Except.ok (rid :: [], [] ++ [(rowKey (ctx.resolveSource url) task_id,
          mkRow (ctx.resolveSource url) task_id aid rid
            (maskLabel res.value (prescan ctx [res]).1 rid) "mask"
            (compute_bbox_and_area (decode_brush_rle_to_mask [] w h))
            (regionMeans ctx (prescan ctx [res]).2 rid (ctx.resolveSource url)
              (decode_brush_rle_to_mask [] w h)) [])]) = _
      rw [decode_nil_bbox, regionMeans_empty_mask ctx _ rid _ _
        (by rw [htm]; rfl) (decode_nil_maskSum w h)]
      rfl
  apply processAnnotation_eq_ok.mpr
  refine ⟨([rid], [(rowKey (ctx.resolveSource url) task_id,
      mkRow (ctx.resolveSource url) task_id aid rid
        (maskLabel res.value (prescan ctx [res]).1 rid) "mask"
        (0, 0, 0, 0, 0) (none, none, none, none) [])]), ?_, rfl⟩
  show ([res] : List Result).foldlM (processResult ctx [(kf, url)] task_id aid
      (prescan ctx [res]).1 (prescan ctx [res]).2) ([], []) = _
  rw [List.foldlM_cons, hstep]
  rfl

/-- Witness for C9: the concrete empty-rle region yields one all-zero row
with absent means. -/
theorem C9_witness :
    ("img.png" ≠ "" ∧ emptyRleResult.id = some "m9" ∧
      emptyRleResult.rtype = some "brushlabels" ∧
      emptyRleResult.value.rle = some (RleField.ints []) ∧
      emptyRleResult.original_width = some 3 ∧ emptyRleResult.original_height = some 2 ∧
      (3 : Nat) ≠ 0 ∧ (2 : Nat) ≠ 0) ∧
    processAnnotation plainCtx [("image", "img.png")] (some 7)
        { id := some 8, result := [emptyRleResult] } =
      Except.ok [(rowKey (plainCtx.resolveSource "img.png") (some 7),
        { image_filename := (plainCtx.resolveSource "img.png").filename,
          task_id := some 7, annotation_id := some 8, region_id := "m9",
          label := maskLabel emptyRleResult.value (prescan plainCtx [emptyRleResult]).1 "m9",
          shape_type := "mask", bbox_x := 0, bbox_y := 0, x_length := 0,
          y_length := 0, area := 0, mean_gray := none, mean_r := none,
          mean_g := none, mean_b := none, polygon_points_px := [] })] :=
  ⟨by decide,
    C9_missing_rle_emits_row plainCtx "image" "img.png" "m9" (some 7) (some 8)
      emptyRleResult 3 2 (by decide) rfl rfl (Or.inr rfl) rfl rfl (by decide) (by decide)⟩

theorem prescanStep_skip (ctx : Ctx) (maps : List (String × String) × List (String × Rat))
    (res : Result) (t : String) (ts : List String)
    (hty : res.rtype = some "textarea")
    (hb : res.value.brushlabels = []) (hp : res.value.polygonlabels = [])
    (htext : res.value.text = t :: ts) (hpf : ctx.parseFloat (pyStrip t) = none) :
    prescanStep ctx maps res = maps := by
  unfold prescanStep
  cases res.id with
  | none => rfl
  | some rid => simp [hb, hp, hty, htext, hpf]

theorem processResult_skip_textarea (ctx : Ctx) (data : List (String × String))
    (task_id ann_id : Option Int) (lm : List (String × String))
    (tm : List (String × Rat)) (st : List String × List (String × Row)) (res : Result)
    (hty : res.rtype = some "textarea") (hrle : res.value.rle = none)
    (hpts : res.value.points = none) :
    processResult ctx data task_id ann_id lm tm st res = Except.ok st := by
  have hmask : isMaskResult res = false := by
    unfold isMaskResult rleIsList
    rw [hty, hrle]
    simp [show asciiLower "textarea" = "textarea" from by decide]
  have hpoly : isPolygonResult res = false := by
    unfold isPolygonResult pointsTruthy
    rw [hty, hpts]
    simp [show asciiLower "textarea" = "textarea" from by decide]
  simp only [processResult]
  split
  · rfl
  · split
    · rfl
    · split
      · rfl
      · rw [if_neg (by rw [hmask]; exact Bool.false_ne_true),
          if_neg (by rw [hpoly]; exact Bool.false_ne_true)]

/-- C10: a textarea result whose first text entry does not parse as a float
is silently ignored: no override is recorded and the whole annotation is
processed exactly as if that result were absent. -/
theorem C10_unparseable_override_ignored (ctx : Ctx) (data : List (String × String))
    (task_id : Option Int) (ann annW : Annotation) (pre post : List Result)
    (res : Result) (t : String) (ts : List String)
    (hann : ann.result = pre ++ post) (hannW : annW.result = pre ++ res :: post)
    (hid : annW.id = ann.id)
    (hty : res.rtype = some "textarea") (htext : res.value.text = t :: ts)
    (hpf : ctx.parseFloat (pyStrip t) = none)
    (hb : res.value.brushlabels = []) (hp : res.value.polygonlabels = [])
    (hrle : res.value.rle = none) (hpts : res.value.points = none) :
    processAnnotation ctx data task_id annW = processAnnotation ctx data task_id ann := by
  unfold processAnnotation
  rw [hann, hannW, hid]
  have hpres : prescan ctx (pre ++ res :: post) = prescan ctx (pre ++ post) := by
    unfold prescan
    rw [List.foldl_append, List.foldl_append, List.foldl_cons,
      prescanStep_skip ctx _ res t ts hty hb hp htext hpf]
  rw [hpres]
  have hfold : (pre ++ res :: post).foldlM (processResult ctx data task_id ann.id
        (prescan ctx (pre ++ post)).1 (prescan ctx (pre ++ post)).2) ([], [])
      = (pre ++ post).foldlM (processResult ctx data task_id ann.id
        (prescan ctx (pre ++ post)).1 (prescan ctx (pre ++ post)).2) ([], []) := by
    rw [List.foldlM_append, List.foldlM_append]
    apply bind_congr
    intro s
    rw [List.foldlM_cons, processResult_skip_textarea ctx data task_id ann.id
      (prescan ctx (pre ++ post)).1 (prescan ctx (pre ++ post)).2 s res hty hrle hpts]
    rfl
  rw [hfold]

/-- Witness for C10: adding the unparseable textarea result (which shares the
region id of the mask region) to the concrete annotation of the C9 scenario
changes nothing. -/
theorem C10_witness :
    (({ id := some 8, result := [emptyRleResult] } : Annotation).result
        = [emptyRleResult] ++ [] ∧
      ({ id := some 8, result := [emptyRleResult, badTextResult] } : Annotation).result
        = [emptyRleResult] ++ badTextResult :: [] ∧
      badTextResult.rtype = some "textarea" ∧
      badTextResult.value.text = ["not a number"] ∧
      plainCtx.parseFloat (pyStrip "not a number") = none) ∧
    processAnnotation plainCtx [("image", "img.png")] (some 7)
        { id := some 8, result := [emptyRleResult, badTextResult] } =
      processAnnotation plainCtx [("image", "img.png")] (some 7)
        { id := some 8, result := [emptyRleResult] } :=
  ⟨⟨rfl, rfl, rfl, rfl, rfl⟩,
    C10_unparseable_override_ignored plainCtx [("image", "img.png")] (some 7)
      { id := some 8, result := [emptyRleResult] }
      { id := some 8, result := [emptyRleResult, badTextResult] }
      [emptyRleResult] [] badTextResult "not a number" []
      rfl rfl rfl rfl rfl rfl rfl rfl rfl rfl⟩

/-- Witness for C5: two regions sharing a region id yield a single row with
distinct region ids. -/
theorem C5_witness :
    processAnnotation plainCtx [("image", "img.png")] (some 1)
        { id := some 2, result := [dupResult1, dupResult2] } = Except.ok [dupRow] ∧
      ([dupRow].map fun kr => kr.2.region_id).Nodup :=
  ⟨rfl,
    C5_region_dedup plainCtx [("image", "img.png")] (some 1)
      { id := some 2, result := [dupResult1, dupResult2] } [dupRow] rfl⟩

/-- Witness for C6: in the override scenario the emitted row carries the
override as its gray mean, with absent colour means. -/
theorem C6_witness :
    processAnnotation parseCtx [("image", "img.png")] (some 1) overrideAnn
        = Except.ok [overrideRow] ∧
      (prescan parseCtx overrideAnn.result).2.lookup overrideRow.2.region_id
        = some 3 ∧
      overrideRow.2.mean_gray = some 3 ∧ overrideRow.2.mean_r = none ∧
        overrideRow.2.mean_g = none ∧ overrideRow.2.mean_b = none :=
  ⟨rfl, rfl,
    C6_textarea_override parseCtx [("image", "img.png")] (some 1) overrideAnn
      [overrideRow] rfl overrideRow (List.mem_singleton.mpr rfl) 3 rfl⟩

end SegExport

